import Mathlib

/-!
Verification of the `lokiunimore` service (Matrix/OAuth account-linking bot)
against its natural-language specification.

Shallow embedding of the three source modules:
* `lokiunimore/matrix/extensions.py` — the `ExtendedClient` Matrix SDK wrapper
  (shared-secret registration and login, paginated room-hierarchy traversal,
  periodic state checkpointing, DM-room deduplication, raising `_send`);
* `lokiunimore/sql/__init__.py` — the `Account` / `MatrixUser` data model;
* `lokiunimore/web/__init__.py` — the Flask OAuth web flow.

Python effects are made explicit: fallible code returns `Except`, HTTP traffic
is passed in as explicit response values, the database is an explicit state,
and the cryptographic hash primitives from the Python standard library
(`hashlib` / `hmac`), which are outside the repository, are abstracted as
function parameters.  Every definition is executable.
-/

namespace Lokiunimore

/-! ## Byte strings and the incremental HMAC interface

`utf8 s` is the UTF-8 encoding of `s` as a list of byte values (naturals
below 256), matching Python's `str.encode("utf8")`. -/

def utf8 (s : String) : List Nat :=
  s.toUTF8.toList.map (fun b => b.toNat)

/-- Incremental-MAC state, embedding Python's `hmac.new(...)` object: the key
it was constructed with and the concatenation of all bytes fed to `update`.
The digest algorithm itself (`hashlib.sha1` in the source) lives in the
Python standard library, outside this repository, so `hexdigest` takes the
keyed-hash hex-digest function as an explicit parameter. -/
structure HmacState where
  key : List Nat
  message : List Nat
deriving Repr, DecidableEq

/-- `hmac.new(key, digestmod=...)`: fresh MAC state with an empty message. -/
def hmac_new (key : List Nat) : HmacState :=
  { key := key, message := [] }

/-- `mac.update(data)`: append `data` to the accumulated message. -/
def HmacState.update (st : HmacState) (data : List Nat) : HmacState :=
  { st with message := st.message ++ data }

/-- `mac.hexdigest()`, given the hex-digest function `H` of the keyed hash. -/
def HmacState.hexdigest (H : List Nat → List Nat → String) (st : HmacState) : String :=
  H st.key st.message

/-! ## HTTP responses and `raise_for_status` -/

/-- An `aiohttp.ClientResponse`, specialised to the parsed JSON body type. -/
structure HttpResponse (β : Type) where
  status : Nat
  body : β
deriving Repr, DecidableEq

/-- Errors surfaced by the `ExtendedClient` operations. -/
inductive MatrixErr where
  /-- `aiohttp.ClientResponseError` from `raise_for_status()` on a 4xx/5xx status. -/
  | httpStatus (status : Nat)
  /-- Python `KeyError`: a JSON body was missing a required key. -/
  | keyError (key : String)
  /-- The paginated loop needed another response but none was supplied. -/
  | ranOutOfResponses
deriving Repr, DecidableEq

/-- `aiohttp.ClientResponse.raise_for_status()`: raises iff `status >= 400`. -/
def raise_for_status (status : Nat) : Except MatrixErr Unit :=
  if 400 ≤ status then .error (.httpStatus status) else .ok ()

/-! ## `ExtendedClient.register_with_shared_secret`

The GET to `/_synapse/admin/v1/register` yields a JSON body whose `nonce`
field we model as `Option String` (`none` = key absent, giving a `KeyError`).
The method then builds the MAC and POSTs the registration request. -/

/-- The JSON body POSTed to `/_synapse/admin/v1/register`. -/
structure RegisterPost where
  nonce : String
  username : String
  displayname : String
  password : String
  admin : Bool
  mac : String
deriving Repr, DecidableEq

/-- First half of `register_with_shared_secret`: check the GET response,
extract the nonce, feed the MAC, and build the registration POST body.
`H` is the HMAC-SHA1 hex-digest function (key, message ↦ hex digest). -/
def register_build_post (H : List Nat → List Nat → String)
    (shared_secret username displayname password : String)
    (getResp : HttpResponse (Option String)) : Except MatrixErr RegisterPost := do
  raise_for_status getResp.status
  let nonce ← match getResp.body with
    | some n => pure n
    | none => Except.error (.keyError "nonce")
  let mac := hmac_new (utf8 shared_secret)
  let mac := mac.update (utf8 nonce)
  let mac := mac.update [0]
  let mac := mac.update (utf8 username)
  let mac := mac.update [0]
  let mac := mac.update (utf8 password)
  let mac := mac.update [0]
  let mac := mac.update (utf8 "notadmin")
  pure {
    nonce := nonce
    username := username
    displayname := displayname
    password := password
    admin := false
    mac := mac.hexdigest H
  }

/-- `register_with_shared_secret`, end to end: build and send the POST, then
`raise_for_status` on the POST's response status.  On success it returns the
request body that was sent. -/
def register_with_shared_secret (H : List Nat → List Nat → String)
    (shared_secret username displayname password : String)
    (getResp : HttpResponse (Option String)) (postStatus : Nat) :
    Except MatrixErr RegisterPost := do
  let post ← register_build_post H shared_secret username displayname password getResp
  raise_for_status postStatus
  pure post

/-! ## `_send` and operations routed through it

`nio`'s `async AsyncClient._send` yields either a parsed success response of
the requested class or a `nio.responses.ErrorResponse`.  The override in
`extensions.py` is a plain `def` shadowing that `async def`: it calls
`super()._send(...)` *without* `await`, so the value it inspects is a
coroutine object, the `isinstance(result, nio.responses.ErrorResponse)` test
is always false, and the `raise RequestError(result)` is unreachable — the
coroutine is returned for the caller to await, and error responses are
returned, never raised. -/

/-- A `nio.responses.ErrorResponse` (what a non-success Matrix API reply
parses to). -/
structure ErrorResponse where
  message : String
  status_code : Nat
deriving Repr, DecidableEq

/-- What awaiting the underlying `nio.AsyncClient._send` yields: a parsed
success response of type `α`, or an `ErrorResponse`. -/
inductive NioResult (α : Type) where
  | success (a : α)
  | error (e : ErrorResponse)
deriving Repr, DecidableEq

/-- A coroutine object: what calling an `async def` *without* `await`
returns.  Awaiting it later yields the wrapped result. -/
structure Coroutine (α : Type) where
  result : NioResult α
deriving Repr, DecidableEq

/-- `isinstance(x, nio.responses.ErrorResponse)` applied to a coroutine
object: false, whatever the coroutine will yield once awaited. -/
def coroutine_isinstance_error_response (_x : Coroutine α) : Bool :=
  false

/-- The `RequestError` exception the `_send` override would raise, wrapping
whatever it inspected (with the un-awaited call, that would be the coroutine
itself). -/
structure RequestError (α : Type) where
  response : α
deriving Repr, DecidableEq

/-- The `_send` override body: `result = super()._send(...)` with no `await`
binds the coroutine object; the `isinstance` test on it decides between
raising `RequestError` and returning the value.  Because the test sees a
coroutine, the raise is dead code. -/
def sendOverride (result : Coroutine α) :
    Except (RequestError (Coroutine α)) (Coroutine α) :=
  if coroutine_isinstance_error_response result then
    .error { response := result }
  else
    .ok result

/-- `await client._send(...)` as its callers inside `nio` perform it: run the
sync override (an exception there would propagate), then await the coroutine
it returned, yielding the underlying response — success or error alike. -/
def await_send (r : NioResult α) :
    Except (RequestError (Coroutine α)) (NioResult α) :=
  match sendOverride { result := r } with
  | .ok c => .ok c.result
  | .error e => .error e

/-- A successful `m.login` response (fields irrelevant to the claims). -/
structure LoginResponse where
  user_id : String
  access_token : String
deriving Repr, DecidableEq

/-- What `login_with_shared_secret` can raise. -/
inductive LoginRaiseErr where
  /-- `raise response`: the `LoginError` response re-raised by the method's
  own live `isinstance(response, nio.responses.LoginError)` check. -/
  | loginError (e : ErrorResponse)
  /-- An exception propagating out of the `_send` override while awaiting
  `login_raw` (unreachable: the override's raise is dead code). -/
  | fromSend (e : RequestError (Coroutine LoginResponse))
deriving Repr, DecidableEq

/-- `login_with_shared_secret`: computes the HMAC-SHA512 login token from the
shared secret and the user id (hex-digest function `H512` abstracted, as for
registration) and awaits `login_raw`, which routes through `_send` and hence
returns error responses rather than raising; the method's own
`isinstance(response, LoginError)` check then re-raises a `LoginError`
response (after a `breakpoint()` call, abstracted as a no-op debugger hook).
Returns the token it sent together with the login response. -/
def login_with_shared_secret (H512 : List Nat → List Nat → String)
    (shared_secret user : String) (r : NioResult LoginResponse) :
    Except LoginRaiseErr (String × LoginResponse) :=
  let token := H512 (utf8 shared_secret) (utf8 user)
  match await_send r with
  | .error e => .error (.fromSend e)
  | .ok (.error e) => .error (.loginError e)
  | .ok (.success response) => .ok (token, response)

/-- A successful `createRoom` response. -/
structure RoomCreateResponse where
  room_id : String
deriving Repr, DecidableEq

/-- `await self.room_create(invite=[user_id], is_direct=True)`: `nio`'s
`room_create` issues its request through `_send`, which returns error
responses instead of raising, so the caller receives the response — success
or error — unchanged; the caller's own `isinstance` check (in `pm_slide`) is
the live error path. -/
def room_create (r : NioResult RoomCreateResponse) :
    Except (RequestError (Coroutine RoomCreateResponse)) (NioResult RoomCreateResponse) :=
  await_send r

/-! ## `ExtendedClient.room_hierarchy`

Each iteration sends a GET (via the *raw* `aiohttp` `send`, not the raising
`_send`) and parses the JSON body; the HTTP status is never inspected.  A page
body is modelled by its `rooms` list (`none` = key absent — indexing it raises
`KeyError`) and its optional `next_batch`.  The loop breaks when
`result.get("next_batch")` is Python-falsy: absent (`None`) or the empty
string. -/

/-- One `/hierarchy` response: HTTP status (read by nobody), the `rooms`
value (`none` when the key is missing), and the `next_batch` value. -/
structure HierarchyPage where
  status : Nat
  rooms : Option (List String)
  next_batch : Option String
deriving Repr, DecidableEq

/-- Python truthiness of an optional string: `None` and `""` are falsy. -/
def truthy : Option String → Bool
  | none => false
  | some s => !(s == "")

/-- The `while True` pagination loop of `room_hierarchy`.  `pages` is the
sequence of homeserver responses the loop would receive, `acc` the rooms
accumulated so far and `cur` the `current` variable.  Returns the accumulated
rooms together with the list of `from` query parameters passed to the
successive requests (`none` = no `from` parameter). -/
def room_hierarchy_go (pages : List HierarchyPage) (acc : List String)
    (cur : Option String) : Except MatrixErr (List String × List (Option String)) :=
  match pages with
  | [] => .error .ranOutOfResponses
  | page :: rest =>
    let param : Option String := if truthy cur then cur else none
    match page.rooms with
    | none => .error (.keyError "rooms")
    | some rs =>
      if truthy page.next_batch then
        match room_hierarchy_go rest (acc ++ rs) page.next_batch with
        | .ok (result, params) => .ok (result, param :: params)
        | .error e => .error e
      else
        .ok (acc ++ rs, [param])

/-- `room_hierarchy`: run the pagination loop from the initial
`current = None`, `rooms = []`. -/
def room_hierarchy (pages : List HierarchyPage) :
    Except MatrixErr (List String × List (Option String)) :=
  room_hierarchy_go pages [] none

/-! ## State checkpointing: `dump_state`, `load_state`, `_dump_state_regularly`

The only client state these touch is `self.next_batch`, an optional string
(it is `None` before the first sync).  The JSON file written is a single
object; we model it as an association list from key to JSON value, where the
only values that ever occur are `null` (= `none`) and strings. -/

/-- The client state relevant to checkpointing. -/
structure ClientState where
  next_batch : Option String
deriving Repr, DecidableEq

/-- A checkpoint file: the JSON object `json.dump` writes, as key/value pairs
(`none` = JSON `null`). -/
abbrev StateFile := List (String × Option String)

/-- `dump_state`: the JSON object written to the state file — `data = dict();
data["next_batch"] = self.next_batch; json.dump(data, file)`. -/
def dump_state (st : ClientState) : StateFile :=
  [("next_batch", st.next_batch)]

/-- A filesystem: paths to file contents. -/
abbrev FileSystem := String → Option StateFile

/-- Writing a file at a path. -/
def fs_write (fs : FileSystem) (path : String) (content : StateFile) : FileSystem :=
  fun q => if q = path then some content else fs q

/-- `_dump_state_regularly`: every period, dump the then-current client state
to the state file.  Given the sequence of client states at the successive
ticks, this is the sequence of file contents written. -/
def dump_state_regularly (states : List ClientState) : List StateFile :=
  states.map dump_state

/-- Errors raised while loading state. -/
inductive LoadErr where
  /-- Python `FileNotFoundError` from `open(path)`. -/
  | fileNotFound
  /-- Python `KeyError`: the JSON object has no `next_batch` key. -/
  | keyError (key : String)
deriving Repr, DecidableEq

/-- Association-list lookup, as Python `data[key]`. -/
def jsonLookup (key : String) : List (String × Option String) → Option (Option String)
  | [] => none
  | (k, v) :: rest => if k = key then some v else jsonLookup key rest

/-- `load_state`: open the file at `path` (raising `FileNotFoundError` if
absent), parse it, and set `self.next_batch` to `data["next_batch"]`. -/
def load_state (st : ClientState) (fs : FileSystem) (path : String) :
    Except LoadErr ClientState :=
  match fs path with
  | none => .error .fileNotFound
  | some data =>
    match jsonLookup "next_batch" data with
    | none => .error (.keyError "next_batch")
    | some v => .ok { st with next_batch := v }

/-! ## `ExtendedClient.sync_forever`

The override loads state (tolerating a missing file), starts the periodic
dump task, runs the underlying `sync_forever`, and — in a `finally` block
that runs on normal return, on an exception from the sync, and on
cancellation alike — cancels the dump task and performs one final
`dump_state`.  The underlying sync is abstracted as: given the state the
client starts syncing from, the way the sync ends and the client state at
that moment. -/

/-- How the underlying `nio.AsyncClient.sync_forever` call ends. -/
inductive SyncOutcome where
  /-- Returned normally. -/
  | normal
  /-- Raised an exception. -/
  | raised
  /-- Was cancelled (`asyncio.CancelledError` propagates through the await). -/
  | cancelled
deriving Repr, DecidableEq

/-- Observable record of one `sync_forever` run. -/
structure SyncRun where
  /-- The state the client started syncing from (after the optional load). -/
  start_state : ClientState
  /-- Whether the periodic dump task was cancelled on the way out. -/
  dump_task_cancelled : Bool
  /-- The content of the final `dump_state` write. -/
  final_dump : StateFile
  /-- How the run ended (the `finally` block re-raises/propagates this). -/
  outcome : SyncOutcome
deriving Repr, DecidableEq

/-- The `sync_forever` override.  `init` is the client state on entry, `fs`
the filesystem, `state_path` the state file path, and `sync` the behaviour of
the underlying `nio` sync: from a starting state, the outcome and the client
state when it ends.  Errors other than `FileNotFoundError` during the load
propagate (the `try` only catches `FileNotFoundError`), before any task is
started. -/
def sync_forever (init : ClientState) (fs : FileSystem) (state_path : String)
    (sync : ClientState → SyncOutcome × ClientState) :
    Except LoadErr (SyncRun × FileSystem) := do
  let loaded ← match load_state init fs state_path with
    | .ok st => pure st
    | .error .fileNotFound => pure init
    | .error e => .error e
  let (outcome, final) := sync loaded
  let content := dump_state final
  pure ({ start_state := loaded
          dump_task_cancelled := true
          final_dump := content
          outcome := outcome },
        fs_write fs state_path content)

/-! ## `ExtendedClient.pm_slide`

Scans `self.rooms.values()` in iteration order for an existing two-person
DM/group room containing the target user; creates a fresh direct room only
when none is found. -/

/-- The slice of `nio.MatrixRoom` that `pm_slide` reads: `room_id`, `tags`,
`is_group`, and the keys of the `users` / `invited_users` dicts. -/
structure MatrixRoom where
  room_id : String
  tags : List String
  is_group : Bool
  users : List String
  invited_users : List String
deriving Repr, DecidableEq

/-- The loop-body test of `pm_slide`: `(is_dm or is_group) and has_two_users
and contains_user_id`. -/
def pm_match (user_id : String) (room : MatrixRoom) : Bool :=
  (room.tags.contains "m.direct" || room.is_group) &&
  (room.users.length + room.invited_users.length == 2) &&
  (room.users.contains user_id || room.invited_users.contains user_id)

/-- Exceptions out of `pm_slide`. -/
inductive PmSlideErr where
  /-- The bare `Exception` raised when room creation fails. -/
  | createFailed
deriving Repr, DecidableEq

/-- `pm_slide`: return the first matching room's id without creating anything;
otherwise create a direct room inviting `user_id` (`create` is the
homeserver's answer to that request) and return its id, raising when creation
fails.  The `Bool` records whether `room_create` was called. -/
def pm_slide (rooms : List MatrixRoom) (user_id : String)
    (create : NioResult RoomCreateResponse) : Except PmSlideErr (String × Bool) :=
  match rooms.find? (pm_match user_id) with
  | some room => .ok (room.room_id, false)
  | none =>
    match create with
    | .success resp => .ok (resp.room_id, true)
    | .error _ => .error .createFailed

/-! ## The SQL data model (`lokiunimore/sql/__init__.py`)

`Account(email PK, first_name, last_name)` and `MatrixUser(id PK, token NOT
NULL, account_email FK → accounts.email NULLABLE)`.  A database state is the
two tables as row lists; well-formedness captures the schema's constraints. -/

/-- An `accounts` row. -/
structure Account where
  email : String
  first_name : String
  last_name : String
deriving Repr, DecidableEq

/-- A `matrix_users` row.  `account_email` is the nullable foreign key to
`accounts.email`. -/
structure MatrixUser where
  id : String
  token : String
  account_email : Option String
deriving Repr, DecidableEq

/-- The persisted database state. -/
structure DbState where
  accounts : List Account
  matrix_users : List MatrixUser
deriving Repr, DecidableEq

/-- Schema constraints: primary-key uniqueness of `Account.email` and
`MatrixUser.id`, and foreign-key integrity of `MatrixUser.account_email`. -/
def DbState.wf (db : DbState) : Prop :=
  (db.accounts.map Account.email).Nodup ∧
  (db.matrix_users.map MatrixUser.id).Nodup ∧
  ∀ u ∈ db.matrix_users, ∀ e, u.account_email = some e →
    e ∈ db.accounts.map Account.email

instance (db : DbState) : Decidable db.wf := by
  unfold DbState.wf
  infer_instance

/-- `db.session.merge(Account(...))`: update the row with the same primary
key if one exists, insert the row otherwise. -/
def merge_account (db : DbState) (a : Account) : DbState :=
  if db.accounts.any (fun x => x.email == a.email) then
    { db with accounts := db.accounts.map (fun x => if x.email == a.email then a else x) }
  else
    { db with accounts := db.accounts ++ [a] }

/-- `matrix_user.account = local_account` on the row `first_or_404` found:
link the first user carrying the token (SQLAlchemy writes the foreign key
`account_email` from the relationship on flush). -/
def link_first (users : List MatrixUser) (token : String) (email : String) :
    List MatrixUser :=
  match users with
  | [] => []
  | u :: rest =>
    if u.token == token then { u with account_email := some email } :: rest
    else u :: link_first rest token email

/-! ## The OAuth web flow (`lokiunimore/web/__init__.py`) -/

/-- The parsed Google id token (`oauth.google.parse_id_token`): the fields the
handler reads. -/
structure GoogleAccount where
  email : String
  email_verified : Bool
  given_name : String
  family_name : String
deriving Repr, DecidableEq

/-- What `oauth.google.authorize_access_token()` + `parse_id_token` amount to
for the handler: one of the two exception classes it catches, or a parsed
Google account. -/
inductive OAuthOutcome where
  /-- `werkzeug.exceptions.BadRequestKeyError`: the query parameters needed
  for OAuth2 are missing. -/
  | missingParams
  /-- `authlib...OAuthError`: the OAuth2 protocol exchange failed. -/
  | oauthError
  /-- Token exchange succeeded and the id token parsed. -/
  | ok (g : GoogleAccount)
deriving Repr, DecidableEq

/-- Which error page `error.html` is rendered with. -/
inductive ErrorKind where
  | oauthMissingParams
  | oauthProtocol
  | emailUnverified
  | emailWrongDomain
deriving Repr, DecidableEq

/-- The handler's HTTP-level result. -/
inductive PageResult where
  /-- `render_template("error.html", ...)` with the given HTTP status
  (Flask's default 200 when the route returns no explicit status). -/
  | errorPage (kind : ErrorKind) (status : Nat)
  /-- `redirect(url_for("page_matrix_profile", token=token))`. -/
  | redirectProfile (token : String)
  /-- `first_or_404` aborted with 404. -/
  | notFound
  /-- The `matrix_token`-less fall-through past the final `if` (the handler
  body ends in a TODO and returns `None`). -/
  | fallthrough
deriving Repr, DecidableEq

/-- `re.match(r"(.+)@studenti[.]unimore[.]it", email)` on a list of
characters: Python's `re.match` anchors at the start only, so this holds iff
some non-empty newline-free prefix is followed by `@studenti.unimore.it`
(and then by anything). -/
def re_match_unimore (email : List Char) : Bool :=
  (List.range (email.length + 1)).any (fun i =>
    decide (1 ≤ i) &&
    !((email.take i).contains '\n') &&
    ((email.drop i).take 20 == "@studenti.unimore.it".toList))

/-- `page_oauth_authorize`: the `/authorize` route.  Inputs: the committed
database, the session's `matrix_token` (if any), and the OAuth exchange's
outcome.  Output: the page result and the database state after the request —
uncommitted session changes (the merge on the 404 and fall-through paths) are
discarded at request teardown, so only the path that reaches
`db.session.commit()` changes the database. -/
def page_oauth_authorize (db : DbState) (session_matrix_token : Option String)
    (oauth : OAuthOutcome) : PageResult × DbState :=
  match oauth with
  | .missingParams => (.errorPage .oauthMissingParams 200, db)
  | .oauthError => (.errorPage .oauthProtocol 200, db)
  | .ok g =>
    if !g.email_verified then
      (.errorPage .emailUnverified 403, db)
    else if !re_match_unimore g.email.toList then
      (.errorPage .emailWrongDomain 403, db)
    else
      let local_account : Account :=
        { email := g.email, first_name := g.given_name, last_name := g.family_name }
      let session_db := merge_account db local_account
      match session_matrix_token with
      | some matrix_token =>
        if session_db.matrix_users.any (fun u => u.token == matrix_token) then
          let session_db :=
            { session_db with
              matrix_users := link_first session_db.matrix_users matrix_token g.email }
          (.redirectProfile matrix_token, session_db)
        else
          (.notFound, db)
      | none => (.fallthrough, db)

end Lokiunimore

namespace Lokiunimore

/-- Helper: closed form of the registration POST body built after a
successful GET. -/
theorem register_build_post_ok (H : List Nat → List Nat → String)
    (ss u d p nonce : String) (status : Nat) (hst : status < 400) :
    register_build_post H ss u d p ⟨status, some nonce⟩ =
      .ok { nonce := nonce, username := u, displayname := d, password := p,
            admin := false,
            mac := H (utf8 ss)
              (utf8 nonce ++ [0] ++ utf8 u ++ [0] ++ utf8 p ++ [0] ++ utf8 "notadmin") } := by
  simp [register_build_post, raise_for_status, Nat.not_le.mpr hst, hmac_new,
    HmacState.update, HmacState.hexdigest]

/-- C1: for every shared secret, nonce, username and password, the MAC sent in
the registration POST is the hex digest of the HMAC-SHA1 keyed with the shared
secret over the bytes `nonce ‖ NUL ‖ username ‖ NUL ‖ password ‖ NUL ‖
"notadmin"`, and the nonce sent is exactly the nonce of the preceding GET. -/
theorem register_post_mac_and_nonce (H : List Nat → List Nat → String)
    (ss u d p nonce : String) (status : Nat) (hst : status < 400) :
    register_build_post H ss u d p ⟨status, some nonce⟩ =
      .ok { nonce := nonce, username := u, displayname := d, password := p,
            admin := false,
            mac := H (utf8 ss)
              (utf8 nonce ++ [0] ++ utf8 u ++ [0] ++ utf8 p ++ [0] ++ utf8 "notadmin") } :=
  register_build_post_ok H ss u d p nonce status hst

/-- Witness for C1 at concrete inputs. -/
theorem register_post_mac_and_nonce_witness :
    register_build_post (fun k m => toString (k.length + m.length))
        "sec" "usr" "dsp" "pwd" ⟨200, some "n0"⟩ =
      .ok { nonce := "n0", username := "usr", displayname := "dsp", password := "pwd",
            admin := false,
            mac := (fun (k m : List Nat) => toString (k.length + m.length)) (utf8 "sec")
              (utf8 "n0" ++ [0] ++ utf8 "usr" ++ [0] ++ utf8 "pwd" ++ [0] ++ utf8 "notadmin") } :=
  register_post_mac_and_nonce (fun k m => toString (k.length + m.length))
    "sec" "usr" "dsp" "pwd" "n0" 200 (by decide)

/-- Helper: binding an `Except.error` short-circuits. -/
theorem error_bind (e : ε) (f : α → Except ε β) :
    (Except.error e : Except ε α) >>= f = .error e := rfl

/-- Helper: binding an `Except.ok` applies the continuation. -/
theorem ok_bind (a : α) (f : α → Except ε β) :
    (Except.ok a : Except ε α) >>= f = f a := rfl

/-- Helper: `register_build_post` fails with the GET's status when it is 4xx/5xx. -/
theorem register_build_post_get_error (H : List Nat → List Nat → String)
    (ss u d p : String) (getResp : HttpResponse (Option String))
    (h : 400 ≤ getResp.status) :
    register_build_post H ss u d p getResp = .error (.httpStatus getResp.status) := by
  simp [register_build_post, raise_for_status, h, error_bind]

/-- C2 counterexample: `room_hierarchy` does not raise on a non-success
response.  A single page with HTTP status 500 whose JSON body has a `rooms`
key and no `next_batch` makes the operation return normally, contradicting
the claim that every `ExtendedClient` homeserver operation raises on a
non-success response. -/
theorem room_hierarchy_ignores_http_status :
    room_hierarchy [⟨500, some [], none⟩] = .ok ([], [none]) := rfl

/-- C2 amended: the operations with live error checks raise on a non-success
(error) response and return normally on success — shared-secret registration
via `raise_for_status`, shared-secret login via its own live
`isinstance(response, LoginError)` re-raise, and DM-room creation via
`pm_slide`'s `isinstance` check — but the `_send` override's `RequestError`
raise is unreachable: the sync override never awaits the async super, so its
`isinstance` test sees a coroutine and every `_send`-routed request returns
its response, error responses included, without raising; and `room_hierarchy`
never inspects the HTTP status — it returns normally whenever the page's JSON
body carries a `rooms` key, whatever the status, and fails only when the
`rooms` key is missing. -/
theorem matrix_error_propagation :
    (∀ (α : Type) (c : Coroutine α), sendOverride c = .ok c) ∧
    (∀ (α : Type) (r : NioResult α), await_send r = .ok r) ∧
    (∀ H ss u d p getResp postStatus, 400 ≤ getResp.status →
      register_with_shared_secret H ss u d p getResp postStatus =
        .error (.httpStatus getResp.status)) ∧
    (∀ H ss u d p nonce gst postStatus, gst < 400 → 400 ≤ postStatus →
      register_with_shared_secret H ss u d p ⟨gst, some nonce⟩ postStatus =
        .error (.httpStatus postStatus)) ∧
    (∀ H ss u d p nonce gst postStatus, gst < 400 → postStatus < 400 →
      ∃ post, register_with_shared_secret H ss u d p ⟨gst, some nonce⟩ postStatus =
        .ok post) ∧
    (∀ H512 ss user e, login_with_shared_secret H512 ss user (.error e) =
      .error (.loginError e)) ∧
    (∀ H512 ss user resp, login_with_shared_secret H512 ss user (.success resp) =
      .ok (H512 (utf8 ss) (utf8 user), resp)) ∧
    (∀ e, room_create (.error e) = .ok (.error e)) ∧
    (∀ resp, room_create (.success resp) = .ok (.success resp)) ∧
    (∀ rooms user_id e, (∀ r ∈ rooms, pm_match user_id r = false) →
      pm_slide rooms user_id (.error e) = .error .createFailed) ∧
    (∀ status rooms, room_hierarchy [⟨status, some rooms, none⟩] = .ok (rooms, [none])) := by
  refine ⟨fun α c => rfl, fun α r => rfl, ?_, ?_, ?_, fun H512 ss user e => rfl,
    fun H512 ss user resp => rfl, fun e => rfl, fun resp => rfl, ?_, ?_⟩
  · intro H ss u d p getResp postStatus h
    simp [register_with_shared_secret, register_build_post_get_error H ss u d p getResp h,
      error_bind]
  · intro H ss u d p nonce gst postStatus hg hp
    simp [register_with_shared_secret,
      register_build_post_ok H ss u d p nonce gst hg,
      ok_bind, raise_for_status, hp]
  · intro H ss u d p nonce gst postStatus hg hp
    refine ⟨{ nonce := nonce, username := u, displayname := d, password := p, admin := false,
              mac := H (utf8 ss)
                (utf8 nonce ++ [0] ++ utf8 u ++ [0] ++ utf8 p ++ [0] ++ utf8 "notadmin") }, ?_⟩
    simp [register_with_shared_secret,
      register_build_post_ok H ss u d p nonce gst hg,
      ok_bind, raise_for_status, Nat.not_le.mpr hp]
  · intro rooms user_id e hall
    have hnone : rooms.find? (pm_match user_id) = none :=
      List.find?_eq_none.mpr (fun x hx => by simp [hall x hx])
    simp [pm_slide, hnone]
  · intro status rooms
    simp [room_hierarchy, room_hierarchy_go, truthy]

/-- Witness for C2 at concrete inputs: a 500 GET makes registration raise, a
200/200 pair makes it return, and a failed creation with no matching room
makes `pm_slide` raise its own bare exception. -/
theorem matrix_error_propagation_witness :
    register_with_shared_secret (fun k m => toString (k.length + m.length))
        "sec" "usr" "dsp" "pwd" ⟨500, some "n0"⟩ 200 = .error (.httpStatus 500) ∧
    (∃ post, register_with_shared_secret (fun k m => toString (k.length + m.length))
        "sec" "usr" "dsp" "pwd" ⟨200, some "n0"⟩ 200 = .ok post) ∧
    pm_slide [] "@a:hs" (.error ⟨"err", 500⟩) = .error .createFailed :=
  ⟨matrix_error_propagation.2.2.1 (fun k m => toString (k.length + m.length))
      "sec" "usr" "dsp" "pwd" ⟨500, some "n0"⟩ 200 (by decide),
   matrix_error_propagation.2.2.2.2.1 (fun k m => toString (k.length + m.length))
      "sec" "usr" "dsp" "pwd" "n0" 200 200 (by decide) (by decide),
   matrix_error_propagation.2.2.2.2.2.2.2.2.2.1 [] "@a:hs" ⟨"err", 500⟩ (by decide)⟩

/-- C3 counterexample: the JSON object `dump_state` writes does not contain
two keys. -/
theorem dump_state_not_two_keys :
    ¬ (dump_state ⟨some "s0"⟩).length = 2 := by
  decide

/-- C3 amended: on each period the background timer task persists exactly one
field of client state — the `next_batch` sync cursor — to the state file: for
every client state, the JSON object written by `dump_state` has the single key
`next_batch`, and every periodic write is such an object. -/
theorem dump_state_single_key :
    (∀ st : ClientState,
      (dump_state st).map Prod.fst = ["next_batch"] ∧ (dump_state st).length = 1) ∧
    (∀ states : List ClientState, ∀ f ∈ dump_state_regularly states,
      f.map Prod.fst = ["next_batch"]) := by
  refine ⟨fun st => ⟨rfl, rfl⟩, ?_⟩
  intro states f hf
  simp only [dump_state_regularly, List.mem_map] at hf
  obtain ⟨st, _, rfl⟩ := hf
  rfl

/-- Witness for C3 (amended) at a concrete state sequence. -/
theorem dump_state_single_key_witness :
    (dump_state ⟨some "a"⟩).map Prod.fst = ["next_batch"] ∧
    ([("next_batch", some "b")] : StateFile).map Prod.fst = ["next_batch"] :=
  ⟨(dump_state_single_key.1 ⟨some "a"⟩).1,
   dump_state_single_key.2 [⟨some "b"⟩] [("next_batch", some "b")] (by decide)⟩

/-- C9: checkpointing round-trips — for every value of the `next_batch` sync
cursor (including the pre-first-sync `None`), dumping state to a path and
loading from the same path restores `next_batch` to the dumped value,
whatever the loading client's prior state and whatever else is on disk. -/
theorem dump_load_roundtrip (st₀ st : ClientState) (fs : FileSystem) (path : String) :
    load_state st₀ (fs_write fs path (dump_state st)) path =
      .ok { next_batch := st.next_batch } := by
  simp [load_state, fs_write, dump_state, jsonLookup]

/-- C10: `sync_forever` loads an existing state file on startup, tolerates a
missing one (syncing then starts from the entry state), and on every exit
path — normal return, exception, cancellation — cancels the periodic dump
task and writes one final `dump_state` of the state the sync ended in to the
state file. -/
theorem sync_forever_shutdown_persistence (init : ClientState) (fs : FileSystem)
    (path : String) (sync : ClientState → SyncOutcome × ClientState) :
    (fs path = none →
      sync_forever init fs path sync =
        .ok ({ start_state := init, dump_task_cancelled := true,
               final_dump := dump_state (sync init).2, outcome := (sync init).1 },
             fs_write fs path (dump_state (sync init).2))) ∧
    (∀ f v, fs path = some f → jsonLookup "next_batch" f = some v →
      sync_forever init fs path sync =
        .ok ({ start_state := { next_batch := v }, dump_task_cancelled := true,
               final_dump := dump_state (sync { next_batch := v }).2,
               outcome := (sync { next_batch := v }).1 },
             fs_write fs path (dump_state (sync { next_batch := v }).2))) ∧
    (∀ run fs', sync_forever init fs path sync = .ok (run, fs') →
      run.dump_task_cancelled = true ∧
      run.final_dump = dump_state (sync run.start_state).2 ∧
      run.outcome = (sync run.start_state).1 ∧
      fs' path = some run.final_dump) := by
  refine ⟨?_, ?_, ?_⟩
  · intro h
    simp [sync_forever, load_state, h, ok_bind, pure, Except.pure]
  · intro f v hf hv
    simp [sync_forever, load_state, hf, hv, ok_bind, pure, Except.pure]
  · intro run fs' h
    unfold sync_forever at h
    rcases hload : load_state init fs path with e | st
    · rw [hload] at h
      rcases e with _ | key
      · simp [ok_bind, pure, Except.pure] at h
        obtain ⟨hrun, hfs⟩ := h
        subst hrun
        simp [← hfs, fs_write]
      · simp [error_bind] at h
    · rw [hload] at h
      simp [ok_bind, pure, Except.pure] at h
      obtain ⟨hrun, hfs⟩ := h
      subst hrun
      simp [← hfs, fs_write]

/-- Witness for C10: a concrete run with a missing state file and one with a
present state file. -/
theorem sync_forever_shutdown_persistence_witness :
    (sync_forever ⟨none⟩ (fun _ => none) "state.json"
        (fun _st => (.cancelled, ⟨some "s9"⟩)) =
      .ok ({ start_state := ⟨none⟩, dump_task_cancelled := true,
             final_dump := dump_state ⟨some "s9"⟩, outcome := .cancelled },
           fs_write (fun _ => none) "state.json" (dump_state ⟨some "s9"⟩))) ∧
    (sync_forever ⟨none⟩ (fs_write (fun _ => none) "state.json" (dump_state ⟨some "s4"⟩))
        "state.json" (fun _st => (.normal, ⟨some "s9"⟩)) =
      .ok ({ start_state := ⟨some "s4"⟩, dump_task_cancelled := true,
             final_dump := dump_state ⟨some "s9"⟩, outcome := .normal },
           fs_write (fs_write (fun _ => none) "state.json" (dump_state ⟨some "s4"⟩))
             "state.json" (dump_state ⟨some "s9"⟩))) :=
  ⟨(sync_forever_shutdown_persistence ⟨none⟩ (fun _ => none) "state.json"
      (fun _st => (.cancelled, ⟨some "s9"⟩))).1 rfl,
   (sync_forever_shutdown_persistence ⟨none⟩
      (fs_write (fun _ => none) "state.json" (dump_state ⟨some "s4"⟩)) "state.json"
      (fun _st => (.normal, ⟨some "s9"⟩))).2.1 (dump_state ⟨some "s4"⟩) (some "s4")
      (by simp [fs_write]) (by simp [dump_state, jsonLookup])⟩

/-- Helper: `find?` returns the head of the tail of a split whose prefix all
fails the predicate and whose head satisfies it. -/
theorem find_first_of_split (p : α → Bool) (pre : List α) (r : α) (post : List α)
    (hpre : ∀ x ∈ pre, p x = false) (hr : p r = true) :
    (pre ++ r :: post).find? p = some r := by
  induction pre with
  | nil => simp [List.find?, hr]
  | cons a pre ih =>
    have ha : p a = false := hpre a (by simp)
    simp only [List.cons_append, List.find?, ha]
    exact ih (fun x hx => hpre x (by simp [hx]))

/-- C6: for every user id, if the client's room map holds a DM/group room with
exactly two members (joined plus invited), one of whom is the user, `pm_slide`
returns the id of the first such room in iteration order without calling
`room_create`; if no room qualifies, it calls `room_create` exactly once —
returning the new room's id when the homeserver accepts and raising when
creation fails. -/
theorem pm_slide_dedup (rooms : List MatrixRoom) (user_id : String)
    (create : NioResult RoomCreateResponse) :
    (∀ pre r post, rooms = pre ++ r :: post →
      pm_match user_id r = true → (∀ x ∈ pre, pm_match user_id x = false) →
      pm_slide rooms user_id create = .ok (r.room_id, false)) ∧
    ((∀ x ∈ rooms, pm_match user_id x = false) →
      (∀ resp, create = .success resp →
        pm_slide rooms user_id create = .ok (resp.room_id, true)) ∧
      (∀ e, create = .error e →
        pm_slide rooms user_id create = .error .createFailed)) := by
  constructor
  · intro pre r post hsplit hr hpre
    subst hsplit
    simp [pm_slide, find_first_of_split (pm_match user_id) pre r post hpre hr]
  · intro hall
    have hnone : rooms.find? (pm_match user_id) = none :=
      List.find?_eq_none.mpr (fun x hx => by simp [hall x hx])
    exact ⟨fun resp hresp => by simp [pm_slide, hnone, hresp],
           fun e he => by simp [pm_slide, hnone, he]⟩

/-- Witness for C6 at concrete inputs: a matching room is returned without
creation even though creation would fail; with no matching room the created
room's id is returned. -/
theorem pm_slide_dedup_witness :
    pm_slide [⟨"!pm:hs", ["m.direct"], false, ["@a:hs", "@me:hs"], []⟩] "@a:hs"
        (.error ⟨"err", 500⟩) = .ok ("!pm:hs", false) ∧
    pm_slide [⟨"!big:hs", [], false, ["@a:hs", "@me:hs", "@c:hs"], []⟩] "@a:hs"
        (.success ⟨"!new:hs"⟩) = .ok ("!new:hs", true) :=
  ⟨(pm_slide_dedup [⟨"!pm:hs", ["m.direct"], false, ["@a:hs", "@me:hs"], []⟩] "@a:hs"
      (.error ⟨"err", 500⟩)).1 [] ⟨"!pm:hs", ["m.direct"], false, ["@a:hs", "@me:hs"], []⟩ []
      rfl (by decide) (by decide),
   ((pm_slide_dedup [⟨"!big:hs", [], false, ["@a:hs", "@me:hs", "@c:hs"], []⟩] "@a:hs"
      (.success ⟨"!new:hs"⟩)).2 (by decide)).1 ⟨"!new:hs"⟩ rfl⟩

/-- C8 counterexample: the pagination loop stops at the first Python-falsy
`next_batch`, and the empty string is falsy — with a first page whose
`next_batch` is `""` and a second page lacking one, the loop returns only the
first page's rooms instead of both pages' rooms as the claim predicts. -/
theorem room_hierarchy_stops_on_empty_batch :
    room_hierarchy [⟨200, some ["r1"], some ""⟩, ⟨200, some ["r2"], none⟩] =
      .ok (["r1"], [none]) ∧
    (Except.ok (["r1"], [none]) : Except MatrixErr (List String × List (Option String))) ≠
      .ok (["r1", "r2"], [none, some ""]) := by
  exact ⟨rfl, by simp⟩

/-- Helper: the pagination loop on a response list splitting as
`pre ++ brk :: rest` where every `pre` page has a truthy `next_batch` and a
`rooms` list and `brk` has a falsy `next_batch` and a `rooms` list: it
accumulates the rooms of `pre` and `brk` and passes the previous page's
`next_batch` as each subsequent `from` parameter. -/
theorem room_hierarchy_go_spec (pre : List HierarchyPage) (brk : HierarchyPage)
    (rest : List HierarchyPage) (bs : List String)
    (hpre : ∀ p ∈ pre, truthy p.next_batch = true ∧ p.rooms ≠ none)
    (hbrk : truthy brk.next_batch = false) (hbs : brk.rooms = some bs) :
    ∀ acc cur, room_hierarchy_go (pre ++ brk :: rest) acc cur =
      .ok (acc ++ (pre.map (fun p => p.rooms.getD [])).flatten ++ bs,
           (if truthy cur then cur else none) :: pre.map HierarchyPage.next_batch) := by
  induction pre with
  | nil =>
    intro acc cur
    simp [room_hierarchy_go, hbs, hbrk]
  | cons p pre ih =>
    intro acc cur
    obtain ⟨hp, hr⟩ := hpre p (by simp)
    obtain ⟨rs, hrs⟩ := Option.ne_none_iff_exists'.mp hr
    have ih' := ih (fun x hx => hpre x (by simp [hx]))
    simp only [List.cons_append, room_hierarchy_go, hrs, hp, if_pos, List.append_eq]
    rw [ih' (acc ++ rs) p.next_batch]
    simp [hp, hrs, List.append_assoc]

/-- C8 amended: for every sequence of paginated hierarchy responses, if some
response has a Python-falsy `next_batch` — the value absent, or present but
the empty string — then `room_hierarchy` terminates and returns the
concatenation, in order, of the `rooms` lists of every page fetched up to and
including the first such response, passing each subsequent request the
previous page's `next_batch` as the `from` parameter (and none on the first
request). -/
theorem room_hierarchy_pagination (pre : List HierarchyPage) (brk : HierarchyPage)
    (rest : List HierarchyPage) (bs : List String)
    (hpre : ∀ p ∈ pre, truthy p.next_batch = true ∧ p.rooms ≠ none)
    (hbrk : truthy brk.next_batch = false) (hbs : brk.rooms = some bs) :
    room_hierarchy (pre ++ brk :: rest) =
      .ok ((pre.map (fun p => p.rooms.getD [])).flatten ++ bs,
           none :: pre.map HierarchyPage.next_batch) := by
  have h := room_hierarchy_go_spec pre brk rest bs hpre hbrk hbs [] none
  simpa [room_hierarchy, truthy] using h

/-- Witness for C8 (amended) at a concrete two-page run. -/
theorem room_hierarchy_pagination_witness :
    room_hierarchy [⟨200, some ["a"], some "b1"⟩, ⟨200, some ["c"], none⟩] =
      .ok (["a", "c"], [none, some "b1"]) := by
  have h := room_hierarchy_pagination [⟨200, some ["a"], some "b1"⟩]
    ⟨200, some ["c"], none⟩ [] ["c"] (by decide) (by decide) rfl
  simpa using h

/-- Helper: `merge_account` leaves `matrix_users` untouched. -/
theorem merge_account_users (db : DbState) (a : Account) :
    (merge_account db a).matrix_users = db.matrix_users := by
  unfold merge_account
  split <;> rfl

/-- Helper: replacing every same-email row by `a` leaves the email column
unchanged. -/
theorem merge_update_emails (accounts : List Account) (a : Account) :
    (accounts.map (fun x => if x.email == a.email then a else x)).map Account.email =
      accounts.map Account.email := by
  rw [List.map_map]
  refine List.map_congr_left (fun x _ => ?_)
  by_cases h : x.email = a.email
  · simp [Function.comp, h]
  · simp [Function.comp, h]

/-- Helper: the `accounts` column of a `merge_account`, in each branch. -/
theorem merge_account_accounts_update (db : DbState) (a : Account)
    (hc : db.accounts.any (fun x => x.email == a.email) = true) :
    (merge_account db a).accounts =
      db.accounts.map (fun x => if x.email == a.email then a else x) := by
  simp [merge_account, hc]

/-- Helper: the `accounts` column of a `merge_account` when no row matches. -/
theorem merge_account_accounts_insert (db : DbState) (a : Account)
    (hc : db.accounts.any (fun x => x.email == a.email) = false) :
    (merge_account db a).accounts = db.accounts ++ [a] := by
  simp [merge_account, hc]

/-- Helper: the merged row is present after `merge_account`. -/
theorem merge_account_mem (db : DbState) (a : Account) :
    a ∈ (merge_account db a).accounts := by
  by_cases hc : db.accounts.any (fun x => x.email == a.email) = true
  · rw [merge_account_accounts_update db a hc]
    obtain ⟨x, hx, hxe⟩ := List.any_eq_true.mp hc
    refine List.mem_map.mpr ⟨x, hx, ?_⟩
    simp [hxe]
  · rw [merge_account_accounts_insert db a (by simpa using hc)]
    simp

/-- Helper: the email column only grows under `merge_account`. -/
theorem merge_account_emails_subset (db : DbState) (a : Account) (e : String)
    (he : e ∈ db.accounts.map Account.email) :
    e ∈ (merge_account db a).accounts.map Account.email := by
  by_cases hc : db.accounts.any (fun x => x.email == a.email) = true
  · rw [merge_account_accounts_update db a hc, merge_update_emails]
    exact he
  · rw [merge_account_accounts_insert db a (by simpa using hc), List.map_append]
    exact List.mem_append_left _ he

/-- Helper: `merge_account` preserves email-column uniqueness. -/
theorem merge_account_nodup (db : DbState) (a : Account)
    (h : (db.accounts.map Account.email).Nodup) :
    ((merge_account db a).accounts.map Account.email).Nodup := by
  by_cases hc : db.accounts.any (fun x => x.email == a.email) = true
  · rw [merge_account_accounts_update db a hc, merge_update_emails]
    exact h
  · have hc' : db.accounts.any (fun x => x.email == a.email) = false := by simpa using hc
    have hnot : a.email ∉ db.accounts.map Account.email := by
      rw [List.any_eq_false] at hc'
      intro hmem
      obtain ⟨x, hx, hxe⟩ := List.mem_map.mp hmem
      exact hc' x hx (by simp [hxe])
    rw [merge_account_accounts_insert db a hc', List.map_append]
    simp [List.nodup_append, h, hnot]

/-- Helper: `link_first` leaves the id column unchanged. -/
theorem link_first_map_id (users : List MatrixUser) (t e : String) :
    (link_first users t e).map MatrixUser.id = users.map MatrixUser.id := by
  induction users with
  | nil => rfl
  | cons u rest ih =>
    unfold link_first
    split <;> simp [ih]

/-- Helper: a row of `link_first users t e` is a row of `users`, or such a row
with its `account_email` set to `some e`. -/
theorem link_first_mem (users : List MatrixUser) (t e : String) :
    ∀ u ∈ link_first users t e,
      u ∈ users ∨ ∃ u' ∈ users, u = { u' with account_email := some e } := by
  induction users with
  | nil => simp [link_first]
  | cons v rest ih =>
    intro u hu
    unfold link_first at hu
    by_cases hv : v.token == t
    · rw [if_pos hv] at hu
      rcases List.mem_cons.mp hu with h | h
      · exact Or.inr ⟨v, by simp, h⟩
      · rcases List.mem_cons.mpr (Or.inr h) with _
        exact Or.inl (List.mem_cons.mpr (Or.inr h))
    · rw [if_neg hv] at hu
      rcases List.mem_cons.mp hu with h | h
      · exact Or.inl (by simp [h])
      · rcases ih u h with h' | ⟨u', hu', he⟩
        · exact Or.inl (List.mem_cons.mpr (Or.inr h'))
        · exact Or.inr ⟨u', List.mem_cons.mpr (Or.inr hu'), he⟩

/-- Helper: when some row carries the token, `link_first` produces a row with
that token linked to `e`. -/
theorem link_first_linked (users : List MatrixUser) (t e : String)
    (h : users.any (fun u => u.token == t) = true) :
    ∃ u ∈ link_first users t e, u.token = t ∧ u.account_email = some e := by
  induction users with
  | nil => simp at h
  | cons v rest ih =>
    by_cases hv : v.token == t
    · refine ⟨{ v with account_email := some e }, ?_, ?_, rfl⟩
      · unfold link_first
        simp [hv]
      · simpa using hv
    · have h' : rest.any (fun u => u.token == t) = true := by
        simpa [List.any_cons, hv] using h
      obtain ⟨u, hu, hut, hue⟩ := ih h'
      refine ⟨u, ?_, hut, hue⟩
      unfold link_first
      simp [hv, hu]

/-- Helper: the success path of `page_oauth_authorize` in closed form. -/
theorem page_oauth_success_eq (db : DbState) (t : String) (g : GoogleAccount)
    (hv : g.email_verified = true) (hm : re_match_unimore g.email.toList = true)
    (hu : db.matrix_users.any (fun u => u.token == t) = true) :
    page_oauth_authorize db (some t) (.ok g) =
      (.redirectProfile t,
       { accounts := (merge_account db
           { email := g.email, first_name := g.given_name, last_name := g.family_name }).accounts,
         matrix_users := link_first db.matrix_users t g.email }) := by
  simp [page_oauth_authorize, hv, show re_match_unimore g.email.data = true from hm,
    merge_account_users, hu]

/-- C4: when a user completes the OAuth web flow with a valid Matrix token in
the session and Google reports a verified email on the university domain, the
handler merges an `Account` carrying Google's email, first and last name,
links the `MatrixUser` holding that token to it (`account_email` becomes the
account's email), commits, and redirects to the profile page for that
token. -/
theorem oauth_link_success (db : DbState) (t : String) (g : GoogleAccount)
    (hv : g.email_verified = true) (hm : re_match_unimore g.email.toList = true)
    (hu : db.matrix_users.any (fun u => u.token == t) = true) :
    (page_oauth_authorize db (some t) (.ok g)).1 = .redirectProfile t ∧
    { email := g.email, first_name := g.given_name, last_name := g.family_name : Account } ∈
      (page_oauth_authorize db (some t) (.ok g)).2.accounts ∧
    ∃ u ∈ (page_oauth_authorize db (some t) (.ok g)).2.matrix_users,
      u.token = t ∧ u.account_email = some g.email := by
  rw [page_oauth_success_eq db t g hv hm hu]
  exact ⟨rfl, merge_account_mem db _, link_first_linked db.matrix_users t g.email hu⟩

/-- Witness for C4 at a concrete database, session and Google account. -/
theorem oauth_link_success_witness :
    (page_oauth_authorize ⟨[], [⟨"@u:hs", "tok", none⟩]⟩ (some "tok")
        (.ok ⟨"a@studenti.unimore.it", true, "Ada", "Bo"⟩)).1 =
      .redirectProfile "tok" ∧
    { email := "a@studenti.unimore.it", first_name := "Ada", last_name := "Bo" : Account } ∈
      (page_oauth_authorize ⟨[], [⟨"@u:hs", "tok", none⟩]⟩ (some "tok")
        (.ok ⟨"a@studenti.unimore.it", true, "Ada", "Bo"⟩)).2.accounts ∧
    ∃ u ∈ (page_oauth_authorize ⟨[], [⟨"@u:hs", "tok", none⟩]⟩ (some "tok")
        (.ok ⟨"a@studenti.unimore.it", true, "Ada", "Bo"⟩)).2.matrix_users,
      u.token = "tok" ∧ u.account_email = some "a@studenti.unimore.it" :=
  oauth_link_success ⟨[], [⟨"@u:hs", "tok", none⟩]⟩ "tok"
    ⟨"a@studenti.unimore.it", true, "Ada", "Bo"⟩ rfl (by decide) (by decide)

/-- C5: every failing run of the OAuth authorize handler — missing query
parameters, an OAuth protocol error, an unverified Google email, or an email
not matching `(.+)@studenti[.]unimore[.]it` (as Python's start-anchored
`re.match` tests it) — renders the error page, with HTTP status 403 in the
last two cases, and leaves the database unchanged: no `Account` is created or
merged and no `MatrixUser` is linked.  The last conjunct states the
no-mutation property for every run that renders an error page. -/
theorem oauth_error_paths (db : DbState) (sess : Option String) :
    page_oauth_authorize db sess .missingParams =
      (.errorPage .oauthMissingParams 200, db) ∧
    page_oauth_authorize db sess .oauthError =
      (.errorPage .oauthProtocol 200, db) ∧
    (∀ g : GoogleAccount, g.email_verified = false →
      page_oauth_authorize db sess (.ok g) = (.errorPage .emailUnverified 403, db)) ∧
    (∀ g : GoogleAccount, g.email_verified = true →
      re_match_unimore g.email.toList = false →
      page_oauth_authorize db sess (.ok g) = (.errorPage .emailWrongDomain 403, db)) ∧
    (∀ oauth k st db', page_oauth_authorize db sess oauth = (.errorPage k st, db') →
      db' = db) := by
  refine ⟨rfl, rfl, ?_, ?_, ?_⟩
  · intro g hg
    simp [page_oauth_authorize, hg]
  · intro g hg hm
    simp [page_oauth_authorize, hg, show re_match_unimore g.email.data = false from hm]
  · intro oauth k st db' h
    cases oauth with
    | missingParams => exact (congrArg Prod.snd h).symm
    | oauthError => exact (congrArg Prod.snd h).symm
    | ok g =>
      by_cases hg : g.email_verified = true
      · by_cases hm : re_match_unimore g.email.data = true
        · exfalso
          rcases sess with _ | t
          · simp [page_oauth_authorize, hg, hm] at h
          · by_cases hu :
              (merge_account db
                  { email := g.email, first_name := g.given_name,
                    last_name := g.family_name }).matrix_users.any
                (fun u => u.token == t) = true
            · simp [page_oauth_authorize, hg, hm, hu] at h
            · simp [page_oauth_authorize, hg, hm,
                show (merge_account db
                    { email := g.email, first_name := g.given_name,
                      last_name := g.family_name }).matrix_users.any
                  (fun u => u.token == t) = false from by simpa using hu] at h
        · have h' := congrArg Prod.snd h
          simp [page_oauth_authorize, hg, show re_match_unimore g.email.data = false
            from by simpa using hm] at h'
          exact h'.symm
      · have h' := congrArg Prod.snd h
        simp [page_oauth_authorize, show g.email_verified = false from by simpa using hg] at h'
        exact h'.symm

/-- Witness for C5 at concrete inputs: unverified email and wrong-domain
email both 403 without touching the database. -/
theorem oauth_error_paths_witness :
    page_oauth_authorize ⟨[], [⟨"@u:hs", "tok", none⟩]⟩ (some "tok")
        (.ok ⟨"a@studenti.unimore.it", false, "Ada", "Bo"⟩) =
      (.errorPage .emailUnverified 403, ⟨[], [⟨"@u:hs", "tok", none⟩]⟩) ∧
    page_oauth_authorize ⟨[], [⟨"@u:hs", "tok", none⟩]⟩ (some "tok")
        (.ok ⟨"a@gmail.com", true, "Ada", "Bo"⟩) =
      (.errorPage .emailWrongDomain 403, ⟨[], [⟨"@u:hs", "tok", none⟩]⟩) :=
  ⟨(oauth_error_paths ⟨[], [⟨"@u:hs", "tok", none⟩]⟩ (some "tok")).2.2.1
      ⟨"a@studenti.unimore.it", false, "Ada", "Bo"⟩ rfl,
   (oauth_error_paths ⟨[], [⟨"@u:hs", "tok", none⟩]⟩ (some "tok")).2.2.2.1
      ⟨"a@gmail.com", true, "Ada", "Bo"⟩ rfl (by decide)⟩

/-- Helper: the database state committed by the success path of the OAuth
handler — merged account plus linked user — satisfies the schema
constraints whenever the starting state did. -/
theorem merged_linked_wf (db : DbState) (t : String) (g : GoogleAccount)
    (hwf : db.wf) :
    (DbState.mk
      (merge_account db
        { email := g.email, first_name := g.given_name, last_name := g.family_name }).accounts
      (link_first db.matrix_users t g.email)).wf := by
  obtain ⟨hnodupA, hnodupU, hfk⟩ := hwf
  refine ⟨merge_account_nodup db _ hnodupA, ?_, ?_⟩
  · show (List.map MatrixUser.id (link_first db.matrix_users t g.email)).Nodup
    rw [link_first_map_id]
    exact hnodupU
  · intro u hu e he
    rcases link_first_mem db.matrix_users t g.email u hu with h | ⟨u', _, heq⟩
    · exact merge_account_emails_subset db _ e (hfk u h e he)
    · have hge : e = g.email := by
        rw [heq] at he
        simpa using he.symm
      subst hge
      exact List.mem_map.mpr ⟨_, merge_account_mem db
        { email := g.email, first_name := g.given_name, last_name := g.family_name }, rfl⟩

/-- Helper: the only database-writing operation in the repository preserves
the schema constraints. -/
theorem page_oauth_authorize_preserves_wf (db : DbState) (sess : Option String)
    (oauth : OAuthOutcome) (hwf : db.wf) :
    (page_oauth_authorize db sess oauth).2.wf := by
  cases oauth with
  | missingParams => exact hwf
  | oauthError => exact hwf
  | ok g =>
    cases hgv : g.email_verified with
    | false => simpa [page_oauth_authorize, hgv] using hwf
    | true =>
      cases hmm : re_match_unimore g.email.data with
      | false => simpa [page_oauth_authorize, hgv, hmm] using hwf
      | true =>
        rcases sess with _ | t
        · simpa [page_oauth_authorize, hgv, hmm] using hwf
        · cases huu : db.matrix_users.any (fun u => u.token == t) with
          | false =>
            have hmu : (merge_account db
                { email := g.email, first_name := g.given_name,
                  last_name := g.family_name }).matrix_users.any
                (fun u => u.token == t) = false := by
              rw [merge_account_users]
              exact huu
            simpa [page_oauth_authorize, hgv, hmm, hmu] using hwf
          | true =>
            rw [page_oauth_success_eq db t g hgv hmm huu]
            exact merged_linked_wf db t g hwf

/-- C7: the persisted data model keeps `MatrixUser.id` and `Account.email`
unique across the repository's database-writing operation, allows a
`MatrixUser` with no linked `Account` (`account_email` nullable), lets each
`MatrixUser` reference at most one `Account`, and lets one `Account` be
referenced by many `MatrixUser`s. -/
theorem schema_invariants :
    (∀ (db : DbState) (sess : Option String) (oauth : OAuthOutcome),
      db.wf → (page_oauth_authorize db sess oauth).2.wf) ∧
    DbState.wf ⟨[], [⟨"@steffo:ryg.one", "tok", none⟩]⟩ ∧
    (∀ db : DbState, db.wf →
      ∀ u ∈ db.matrix_users, ∀ a ∈ db.accounts, ∀ b ∈ db.accounts,
        u.account_email = some a.email → u.account_email = some b.email → a = b) ∧
    DbState.wf ⟨[⟨"e@studenti.unimore.it", "Ada", "Bo"⟩],
      [⟨"@u1:hs", "t1", some "e@studenti.unimore.it"⟩,
       ⟨"@u2:hs", "t2", some "e@studenti.unimore.it"⟩]⟩ := by
  refine ⟨page_oauth_authorize_preserves_wf, by decide, ?_, by decide⟩
  intro db hwf u _ a ha b hb hea heb
  have hab : a.email = b.email := by
    rw [hea] at heb
    simpa using heb
  exact List.inj_on_of_nodup_map hwf.1 ha hb hab

/-- Witness for C7 at a concrete database and request. -/
theorem schema_invariants_witness :
    (page_oauth_authorize ⟨[], [⟨"@u:hs", "tok", none⟩]⟩ (some "tok")
      (.ok ⟨"a@studenti.unimore.it", true, "Ada", "Bo"⟩)).2.wf ∧
    ({ id := "@u1:hs", token := "t1", account_email := some "e@x" } : MatrixUser).account_email =
      some "e@x" :=
  ⟨schema_invariants.1 ⟨[], [⟨"@u:hs", "tok", none⟩]⟩ (some "tok")
      (.ok ⟨"a@studenti.unimore.it", true, "Ada", "Bo"⟩) (by decide),
   rfl⟩

end Lokiunimore
